import Mathlib

/-!
Verification of the HFT options trading simulator (src/main.cpp).

The whole program lives in `main.cpp`: five pure payoff functions, two
indicator functions (`computeMA`, `computeVolatility`), a GBM price step,
and a per-tick loop that derives one signal per strategy and runs one
open/hold/close state machine per strategy (indices 1..5, same numbering
as the source: 1 Straddle, 2 Strangle, 3 Bull Spread, 4 Bear Spread,
5 Butterfly Spread).  Prices are C++ `double`s; they are modelled as real
numbers, so every definition in this file is `noncomputable` but exact.
-/

noncomputable section

namespace HFT

/-! ### Payoff library (src/main.cpp lines 27-56) -/

/-- Source function `straddlePayoff`: long call and long put at strike `K`. -/
def straddlePayoff (S K : ℝ) : ℝ :=
  let call := max (S - K) 0
  let put := max (K - S) 0
  call + put

/-- Source function `stranglePayoff`: long put at `K1`, long call at `K2`. -/
def stranglePayoff (S K1 K2 : ℝ) : ℝ :=
  let put := max (K1 - S) 0
  let call := max (S - K2) 0
  put + call

/-- Source function `bullSpreadPayoff`: long call at `K1`, short call at `K2`. -/
def bullSpreadPayoff (S K1 K2 : ℝ) : ℝ :=
  let longCall := max (S - K1) 0
  let shortCall := max (S - K2) 0
  longCall - shortCall

/-- Source function `bearSpreadPayoff`: long put at `K1`, short position at `K2`
(the source computes `max(S - K2, 0)` for the short leg). -/
def bearSpreadPayoff (S K1 K2 : ℝ) : ℝ :=
  let longPut := max (K1 - S) 0
  let shortPut := max (S - K2) 0
  longPut - shortPut

/-- Source function `butterflySpreadPayoff`: long calls at `K1`, `K3`, two short
calls at `K2`. -/
def butterflySpreadPayoff (S K1 K2 K3 : ℝ) : ℝ :=
  let longCall1 := max (S - K1) 0
  let shortCalls := 2 * max (S - K2) 0
  let longCall2 := max (S - K3) 0
  longCall1 - shortCalls + longCall2

/-! ### Indicator functions (src/main.cpp lines 61-89) -/

/-- Source function `computeMA`.  The C++ indexes `prices[i]` for
`i = currentTick - window + 1 .. currentTick`; out-of-range access is
modelled by `List.getD _ 0` (the source never indexes out of range in a
run, since `currentTick < prices.size()`). -/
def computeMA (prices : List ℝ) (currentTick window : ℕ) : ℝ :=
  if currentTick < window - 1 then prices.getD currentTick 0
  else
    (((List.range window).map
        (fun j => prices.getD (currentTick + 1 - window + j) 0)).sum) / (window : ℝ)

/-- Source function `computeVolatility`.  The loop runs
`i = currentTick - window + 1 .. currentTick`, skips `i = 0`, and pushes
`log(prices[i] / prices[i-1])`; then divides by `returns.size()` both for
the mean and for the variance, and takes the square root. -/
def computeVolatility (prices : List ℝ) (currentTick window : ℕ) : ℝ :=
  if currentTick < window then 0
  else
    let returns :=
      ((((List.range window).map (fun j => currentTick + 1 - window + j)).filter
          (fun i => i ≠ 0)).map
        (fun i => Real.log (prices.getD i 0 / prices.getD (i - 1) 0)))
    let mean := returns.sum / (returns.length : ℝ)
    let variance := (returns.map (fun r => (r - mean) * (r - mean))).sum / (returns.length : ℝ)
    Real.sqrt variance

/-! ### Price path generation (src/main.cpp line 138) -/

/-- One GBM step:
`S_new = S_prev * exp((mu - 0.5 * sigma * sigma) * dt + sigma * sqrt(dt) * Z)`. -/
def gbmStep (Sprev mu sigma dt Z : ℝ) : ℝ :=
  Sprev * Real.exp ((mu - 0.5 * sigma * sigma) * dt + sigma * Real.sqrt dt * Z)

/-! ### Trade record and simulation state (src/main.cpp lines 10-21, 94-132) -/

/-- The `Trade` struct.  The C++ member `open` is called `isOpen` here (`open`
is a Lean keyword).  The source leaves all members except `open`
uninitialized at program start; `initTrade` models them as zero, and no
theorem depends on a field before the program writes it. -/
structure Trade where
  strategyType : ℕ
  entryTick : ℕ
  exitTick : ℕ
  entryPrice : ℝ
  exitPrice : ℝ
  strike1 : ℝ
  strike2 : ℝ
  strike3 : ℝ
  volume : ℤ
  payoff : ℝ
  isOpen : Bool

/-- State of `activeTrades[i]` after the initialization loop. -/
def initTrade : Trade :=
  { strategyType := 0, entryTick := 0, exitTick := 0, entryPrice := 0, exitPrice := 0,
    strike1 := 0, strike2 := 0, strike3 := 0, volume := 0, payoff := 0, isOpen := false }

/-- The simulation constants of `main` (src/main.cpp lines 96-116), kept as a
configuration bundle so theorems can quantify over them. -/
structure Params where
  S0 : ℝ
  mu : ℝ
  sigma : ℝ
  dt : ℝ
  delta : ℝ
  volThresholdHigh : ℝ
  volThresholdLow : ℝ
  volThresholdHighStrangle : ℝ
  volThresholdLowStrangle : ℝ
  totalTicks : ℕ
  holdPeriod : ℕ
  shortWindow : ℕ
  longWindow : ℕ
  volWindow : ℕ
  tradeVolume : ℤ

/-- The literal constants of src/main.cpp lines 96-113 (and the trade volume
10 written at every entry site). -/
def codeParams : Params :=
  { S0 := 100, mu := 0.0001, sigma := 0.01, dt := 1, delta := 0.05,
    volThresholdHigh := 0.01, volThresholdLow := 0.005,
    volThresholdHighStrangle := 0.012, volThresholdLowStrangle := 0.007,
    totalTicks := 10000, holdPeriod := 10, shortWindow := 5, longWindow := 20,
    volWindow := 5, tradeVolume := 10 }

/-! ### Alpha signals (src/main.cpp lines 148-182) -/

/-- Straddle signal: `+1` if `volatility > volThresholdHigh`, else `-1` if
`volatility < volThresholdLow`, else `0`. -/
def alphaStraddle (volatility volHigh volLow : ℝ) : ℤ :=
  if volatility > volHigh then 1 else if volatility < volLow then -1 else 0

/-- Strangle signal, same shape with its own thresholds. -/
def alphaStrangle (volatility volHigh volLow : ℝ) : ℤ :=
  if volatility > volHigh then 1 else if volatility < volLow then -1 else 0

/-- Bull-spread signal: `+1` if `shortMA > longMA`, else `-1`. -/
def alphaBull (shortMA longMA : ℝ) : ℤ :=
  if shortMA > longMA then 1 else -1

/-- Bear-spread signal: `+1` if `shortMA < longMA`, else `-1`. -/
def alphaBear (shortMA longMA : ℝ) : ℤ :=
  if shortMA < longMA then 1 else -1

/-- Butterfly signal: `+1` if `volatility < volThresholdLow`, else `-1`. -/
def alphaButterfly (volatility volLow : ℝ) : ℤ :=
  if volatility < volLow then 1 else -1

/-- The per-strategy signal, by source strategy index (1..5; any other index
is never consulted and yields `0`). -/
def signalOf (p : Params) (shortMA longMA vola : ℝ) (i : ℕ) : ℤ :=
  if i = 1 then alphaStraddle vola p.volThresholdHigh p.volThresholdLow
  else if i = 2 then alphaStrangle vola p.volThresholdHighStrangle p.volThresholdLowStrangle
  else if i = 3 then alphaBull shortMA longMA
  else if i = 4 then alphaBear shortMA longMA
  else if i = 5 then alphaButterfly vola p.volThresholdLow
  else 0

/-! ### Per-strategy trade blocks (src/main.cpp lines 184-291)

The five blocks are structurally identical; they differ only in the strikes
written at entry and the payoff function called at exit.  `setStrikesOf` and
`payoffAtOf` tabulate exactly those two differences, and `tradeStep` is the
shared block shape. -/

/-- Strike assignment at entry, by strategy index (lines 194, 215-216,
236-237, 257-258, 278-280 of the source). -/
def setStrikesOf (d : ℝ) (i : ℕ) (S : ℝ) (tr : Trade) : Trade :=
  if i = 1 then { tr with strike1 := S }
  else if i = 2 then { tr with strike1 := S * (1 - d), strike2 := S * (1 + d) }
  else if i = 3 then { tr with strike1 := S * (1 - d), strike2 := S * (1 + d) }
  else if i = 4 then { tr with strike1 := S * (1 + d), strike2 := S * (1 - d) }
  else if i = 5 then { tr with strike1 := S * (1 - d), strike2 := S, strike3 := S * (1 + d) }
  else tr

/-- Payoff call at exit, by strategy index (lines 201, 222, 243, 264, 286 of
the source), applied to the settlement price and the trade's recorded
strikes. -/
def payoffAtOf (i : ℕ) (S : ℝ) (tr : Trade) : ℝ :=
  if i = 1 then straddlePayoff S tr.strike1
  else if i = 2 then stranglePayoff S tr.strike1 tr.strike2
  else if i = 3 then bullSpreadPayoff S tr.strike1 tr.strike2
  else if i = 4 then bearSpreadPayoff S tr.strike1 tr.strike2
  else if i = 5 then butterflySpreadPayoff S tr.strike1 tr.strike2 tr.strike3
  else 0

/-- One per-strategy block of the simulation loop:
```
if (!activeTrades[i].open && alpha == +1) { ... open ... }
else if (activeTrades[i].open) {
  if ((t - entryTick >= holdPeriod) || (alpha == -1)) { ... close ... }
}
```
The holding-time comparison is on C++ `int`s, hence the `ℤ` casts. -/
def tradeStep (i : ℕ) (setStrikes : ℝ → Trade → Trade) (payoffAt : ℝ → Trade → ℝ)
    (holdPeriod : ℕ) (tradeVolume : ℤ) (t : ℕ) (S : ℝ) (alpha : ℤ)
    (tr : Trade) (pnl : ℝ) : Trade × ℝ :=
  if tr.isOpen = false ∧ alpha = 1 then
    (setStrikes S
      { tr with
        isOpen := true, strategyType := i, entryTick := t,
        entryPrice := S, volume := tradeVolume },
      pnl)
  else if tr.isOpen = true then
    if (t : ℤ) - (tr.entryTick : ℤ) ≥ (holdPeriod : ℤ) ∨ alpha = -1 then
      let po := payoffAt S tr
      ({ tr with
          exitTick := t, exitPrice := S, payoff := po * (tr.volume : ℝ),
          isOpen := false },
        pnl + po * (tr.volume : ℝ))
    else (tr, pnl)
  else (tr, pnl)

/-- Full mutable state of `main`'s loop: the price history, the five active
trade slots and the five cumulative PnL cells (indexed 1..5 as in the
source arrays). -/
structure SimState where
  prices : List ℝ
  trades : ℕ → Trade
  pnl : ℕ → ℝ

/-- State right before the loop: `prices = {S0}`, all trades closed, all PnL
cells zero. -/
def initState (S0 : ℝ) : SimState :=
  { prices := [S0], trades := fun _ => initTrade, pnl := fun _ => 0 }

/-- The new price pushed at a loop iteration: `prices.back()` fed through the
GBM step with the fresh normal draw. -/
def stepPrice (p : Params) (Z : ℝ) (st : SimState) : ℝ :=
  gbmStep (st.prices.getLast?.getD 0) p.mu p.sigma p.dt Z

/-- One full iteration of the simulation loop at tick `t` (lines 134-292 of
the source): push the GBM price, recompute the indicators over the updated
history, derive the five signals, and run the five trade blocks. -/
def simStep (p : Params) (Z : ℝ) (t : ℕ) (st : SimState) : SimState :=
  let Snew := stepPrice p Z st
  let prices := st.prices ++ [Snew]
  let shortMA := computeMA prices t p.shortWindow
  let longMA := computeMA prices t p.longWindow
  let vola := computeVolatility prices t p.volWindow
  { prices := prices
    trades := fun i => (tradeStep i (setStrikesOf p.delta i) (payoffAtOf i) p.holdPeriod
      p.tradeVolume t Snew (signalOf p shortMA longMA vola i) (st.trades i) (st.pnl i)).1
    pnl := fun i => (tradeStep i (setStrikesOf p.delta i) (payoffAtOf i) p.holdPeriod
      p.tradeVolume t Snew (signalOf p shortMA longMA vola i) (st.trades i) (st.pnl i)).2 }

/-- State after loop iterations `t = 1 .. n` (the source loop runs
`t = 1 .. totalTicks - 1`; `simRun p Z n` is the state after iteration `n`,
with `Z t` the normal draw consumed at iteration `t`). -/
def simRun (p : Params) (Z : ℕ → ℝ) : ℕ → SimState
  | 0 => initState p.S0
  | n + 1 => simStep p (Z (n + 1)) (n + 1) (simRun p Z n)

/-! ### Open/close counting over a run (for the ledger invariant) -/

/-- Number of iterations among `1..n` at which strategy `i`'s slot went from
closed to open. -/
def opensUpTo (p : Params) (Z : ℕ → ℝ) (i : ℕ) : ℕ → ℕ
  | 0 => 0
  | n + 1 => opensUpTo p Z i n +
      (if ((simRun p Z n).trades i).isOpen = false ∧
          ((simRun p Z (n + 1)).trades i).isOpen = true then 1 else 0)

/-- Number of iterations among `1..n` at which strategy `i`'s slot went from
open to closed. -/
def closesUpTo (p : Params) (Z : ℕ → ℝ) (i : ℕ) : ℕ → ℕ
  | 0 => 0
  | n + 1 => closesUpTo p Z i n +
      (if ((simRun p Z n).trades i).isOpen = true ∧
          ((simRun p Z (n + 1)).trades i).isOpen = false then 1 else 0)

/-! ### Spec-side comparison definitions

These two follow the wording of the specification (section 4.2), to be
compared with the source-derived `computeMA` / `computeVolatility`. -/

/-- Modelled from the spec: arithmetic mean of the `window` most recent
prices ending at `tick` inclusive. -/
def specMovingAverage (prices : List ℝ) (t w : ℕ) : ℝ :=
  (∑ j in Finset.range w, prices.getD (t + 1 - w + j) 0) / (w : ℝ)

/-- Modelled from the spec: log-return `r_i = ln(price_i / price_{i-1})`. -/
def specLogReturn (prices : List ℝ) (i : ℕ) : ℝ :=
  Real.log (prices.getD i 0 / prices.getD (i - 1) 0)

/-- Modelled from the spec: population standard deviation (divisor = number
of returns used) of the `w` log-returns ending at tick `t`. -/
def specRealizedVol (prices : List ℝ) (t w : ℕ) : ℝ :=
  Real.sqrt ((∑ j in Finset.range w,
      (specLogReturn prices (t + 1 - w + j) -
        (∑ k in Finset.range w, specLogReturn prices (t + 1 - w + k)) / (w : ℝ)) ^ 2) / (w : ℝ))

/-- The degenerate configuration of the spec's end-to-end scenario:
drift = 0 and volatility = 0, all other constants as in the source. -/
def degenParams : Params :=
  { codeParams with mu := 0, sigma := 0 }

/-- Per-tick price ratios of a concrete run: flat, then a dip-free rise to
trigger a bear-spread entry at tick 4, a spike at tick 5, and a settlement
just above the short strike at tick 6. -/
def bearRatio (t : ℕ) : ℝ :=
  if t = 4 then 3 / 2 else if t = 5 then 2 else if t = 6 then 8 / 15 else 1

/-- Normal draws realizing `bearRatio` under the source constants
(mu = 0.0001, sigma = 0.01, dt = 1): with `Z t = 100*ln(bearRatio t) - 0.005`
the GBM step multiplies the price by exactly `bearRatio t`. -/
def bearZ (t : ℕ) : ℝ := 100 * Real.log (bearRatio t) - 0.005

end HFT

namespace HFT

/-! ### Theorems -/

/-- Claim C6: the five payoff functions equal the spec's intrinsic-value
formulas, and the listed boundary values hold. -/
theorem payoff_library_spec : ∀ S K K1 K2 K3 : ℝ,
    straddlePayoff S K = max (S - K) 0 + max (K - S) 0 ∧
    stranglePayoff S K1 K2 = max (K1 - S) 0 + max (S - K2) 0 ∧
    bullSpreadPayoff S K1 K2 = max (S - K1) 0 - max (S - K2) 0 ∧
    bearSpreadPayoff S K1 K2 = max (K1 - S) 0 - max (S - K2) 0 ∧
    butterflySpreadPayoff S K1 K2 K3 =
      max (S - K1) 0 - 2 * max (S - K2) 0 + max (S - K3) 0 ∧
    straddlePayoff 100 100 = 0 ∧ straddlePayoff 150 100 = 50 ∧
    straddlePayoff 50 100 = 50 ∧ bullSpreadPayoff 120 90 110 = 20 := by
  intro S K K1 K2 K3
  refine ⟨rfl, rfl, rfl, rfl, rfl, ?_, ?_, ?_, ?_⟩ <;>
    norm_num [straddlePayoff, bullSpreadPayoff, max_def]

/-! #### List helper lemmas -/

lemma list_sum_map_range (n : ℕ) (f : ℕ → ℝ) :
    ((List.range n).map f).sum = ∑ j in Finset.range n, f j := by
  induction n with
  | zero => simp
  | succ n ih =>
      rw [List.range_succ, List.map_append, List.sum_append, Finset.sum_range_succ, ih]
      simp

lemma getD_replicate (m i : ℕ) (c : ℝ) (h : i < m) :
    (List.replicate m c).getD i 0 = c := by
  simp [List.getD_eq_getElem?_getD, List.getElem?_replicate, h]

/-! #### Claim C9 -/

/-- Claim C9: `computeMA` returns the arithmetic mean of the `w` most recent
prices ending at `t` when `t ≥ w - 1`, and the price at `t` itself during
warm-up (`t < w - 1`); for the history `[100]` with window 5 it
returns 100. -/
theorem computeMA_spec (prices : List ℝ) (t w : ℕ) :
    (t < w - 1 → computeMA prices t w = prices.getD t 0) ∧
    (1 ≤ w → w - 1 ≤ t → computeMA prices t w = specMovingAverage prices t w) ∧
    computeMA [100] 0 5 = 100 := by
  refine ⟨fun h => by simp [computeMA, h], fun hw ht => ?_, by simp [computeMA]⟩
  rw [computeMA, if_neg (by omega), specMovingAverage, list_sum_map_range]

theorem computeMA_spec_witness :
    ((0 : ℕ) < 5 - 1 ∧ 1 ≤ 5 ∧ (5 : ℕ) - 1 ≤ 6) ∧
    computeMA [100] 0 5 = [(100 : ℝ)].getD 0 0 ∧
    computeMA [1, 2, 3, 4, 5, 6, 7] 6 5 = specMovingAverage [1, 2, 3, 4, 5, 6, 7] 6 5 :=
  ⟨by omega,
    (computeMA_spec [100] 0 5).1 (by omega),
    (computeMA_spec [1, 2, 3, 4, 5, 6, 7] 6 5).2.1 (by omega) (by omega)⟩

/-! #### Claim C1 -/

/-- Claim C1 counterexample: at `t = 2`, `w = 3` there are exactly `w`
observations (`¬ t < w - 1`), yet `computeVolatility` returns 0 — the code's
warm-up guard is `t < w`, not `t < w - 1` as the claim states. -/
theorem computeVolatility_claim_ce :
    computeVolatility [1, 2, 8] 2 3 = 0 ∧ ¬(2 < 3 - 1) :=
  ⟨by simp [computeVolatility], by omega⟩

lemma vol_index_filter (t w : ℕ) (hw : w ≤ t) :
    (((List.range w).map (fun j => t + 1 - w + j)).filter (fun i => i ≠ 0)) =
      (List.range w).map (fun j => t + 1 - w + j) := by
  apply List.filter_eq_self.mpr
  intro a ha
  simp only [List.mem_map, List.mem_range] at ha
  obtain ⟨j, hj, rfl⟩ := ha
  simp only [ne_eq, decide_not, Bool.not_eq_true', decide_eq_false_iff_not]
  omega

lemma vol_replicate (m t w : ℕ) (c : ℝ) (hc : 0 < c) (ht : t < m) :
    computeVolatility (List.replicate m c) t w = 0 := by
  by_cases h : t < w
  · simp [computeVolatility, h]
  · have hw : w ≤ t := by omega
    rw [computeVolatility, if_neg (by omega)]
    have key : ∀ x ∈ (((List.range w).map (fun j => t + 1 - w + j)).filter
        (fun i => i ≠ 0)).map
          (fun i => Real.log ((List.replicate m c).getD i 0 /
            (List.replicate m c).getD (i - 1) 0)), x = 0 := by
      intro x hx
      rw [vol_index_filter t w hw] at hx
      simp only [List.map_map, List.mem_map, List.mem_range, Function.comp] at hx
      obtain ⟨j, hj, rfl⟩ := hx
      rw [getD_replicate _ _ _ (by omega), getD_replicate _ _ _ (by omega),
        div_self (ne_of_gt hc), Real.log_one]
    have hsum : ((((List.range w).map (fun j => t + 1 - w + j)).filter
        (fun i => i ≠ 0)).map
          (fun i => Real.log ((List.replicate m c).getD i 0 /
            (List.replicate m c).getD (i - 1) 0))).sum = 0 :=
      List.sum_eq_zero key
    have key2 : ∀ x ∈ ((((List.range w).map (fun j => t + 1 - w + j)).filter
        (fun i => i ≠ 0)).map
          (fun i => Real.log ((List.replicate m c).getD i 0 /
            (List.replicate m c).getD (i - 1) 0))).map
          (fun r => (r - 0) * (r - 0)), x = 0 := by
      intro x hx
      simp only [List.mem_map] at hx
      obtain ⟨r, hr, rfl⟩ := hx
      obtain ⟨i, hi, rfl⟩ := hr
      rw [vol_index_filter t w hw] at hi
      simp only [List.mem_map, List.mem_range] at hi
      obtain ⟨j, hj, rfl⟩ := hi
      rw [getD_replicate _ _ _ (by omega), getD_replicate _ _ _ (by omega),
        div_self (ne_of_gt hc), Real.log_one]
      ring
    simp only [hsum, zero_div, sub_zero]
    rw [show (fun r : ℝ => (r - (0:ℝ)) * (r - 0)) = fun r : ℝ => r * r by
      funext r; ring] at key2
    rw [List.sum_eq_zero (by simpa using key2), zero_div, Real.sqrt_zero]

/-- Claim C1 (amended): `computeVolatility` returns 0 when `t < w` (fewer
than `w + 1` prices, i.e. fewer than `w` returns, are available); otherwise
it returns the population standard deviation (divisor = number of returns
used = `w`) of the `w` log-returns over the `w + 1` most recent prices
ending at `t`; and on a constant positive price history it returns
exactly 0. -/
theorem computeVolatility_correct (prices : List ℝ) (t w m : ℕ) (c : ℝ) :
    (t < w → computeVolatility prices t w = 0) ∧
    (w ≤ t → computeVolatility prices t w = specRealizedVol prices t w) ∧
    (0 < c → t < m → computeVolatility (List.replicate m c) t w = 0) := by
  refine ⟨fun h => by simp [computeVolatility, h], fun hw => ?_,
    fun hc ht => vol_replicate m t w c hc ht⟩
  rw [computeVolatility, if_neg (by omega)]
  simp only [vol_index_filter t w hw, List.map_map, List.length_map, List.length_range,
    list_sum_map_range, specRealizedVol]
  congr 1
  congr 1
  apply Finset.sum_congr rfl
  intro j _
  simp only [Function.comp, specLogReturn]
  ring

theorem computeVolatility_correct_witness :
    ((2 : ℕ) < 3 ∧ (2 : ℕ) ≤ 2 ∧ (0 : ℝ) < 1 ∧ (2 : ℕ) < 4) ∧
    computeVolatility [1, 2, 8] 2 3 = 0 ∧
    computeVolatility [1, 2, 4] 2 2 = specRealizedVol [1, 2, 4] 2 2 ∧
    computeVolatility (List.replicate 4 (1 : ℝ)) 2 2 = 0 :=
  ⟨⟨by omega, by omega, by norm_num, by omega⟩,
    (computeVolatility_correct [1, 2, 8] 2 3 4 1).1 (by omega),
    (computeVolatility_correct [1, 2, 4] 2 2 4 1).2.1 (by omega),
    (computeVolatility_correct [1, 2, 4] 2 2 4 1).2.2 (by norm_num) (by omega)⟩

/-! #### Case lemmas for the per-strategy trade block -/

lemma tradeStep_enter {i : ℕ} {sS : ℝ → Trade → Trade} {pA : ℝ → Trade → ℝ}
    {hp : ℕ} {v : ℤ} {t : ℕ} {S : ℝ} {a : ℤ} {tr : Trade} {pnl : ℝ}
    (h : tr.isOpen = false) (ha : a = 1) :
    tradeStep i sS pA hp v t S a tr pnl =
      (sS S
        { tr with
          isOpen := true, strategyType := i, entryTick := t,
          entryPrice := S, volume := v },
        pnl) := by
  rw [tradeStep, if_pos ⟨h, ha⟩]

lemma tradeStep_not_enter {i : ℕ} {sS : ℝ → Trade → Trade} {pA : ℝ → Trade → ℝ}
    {hp : ℕ} {v : ℤ} {t : ℕ} {S : ℝ} {a : ℤ} {tr : Trade} {pnl : ℝ}
    (h : tr.isOpen = false) (ha : a ≠ 1) :
    tradeStep i sS pA hp v t S a tr pnl = (tr, pnl) := by
  rw [tradeStep, if_neg (fun hcon => ha hcon.2), if_neg (by simp [h])]

lemma tradeStep_hold {i : ℕ} {sS : ℝ → Trade → Trade} {pA : ℝ → Trade → ℝ}
    {hp : ℕ} {v : ℤ} {t : ℕ} {S : ℝ} {a : ℤ} {tr : Trade} {pnl : ℝ}
    (h : tr.isOpen = true)
    (hc : ¬((t : ℤ) - (tr.entryTick : ℤ) ≥ (hp : ℤ) ∨ a = -1)) :
    tradeStep i sS pA hp v t S a tr pnl = (tr, pnl) := by
  rw [tradeStep, if_neg (by simp [h]), if_pos h, if_neg hc]

lemma tradeStep_close {i : ℕ} {sS : ℝ → Trade → Trade} {pA : ℝ → Trade → ℝ}
    {hp : ℕ} {v : ℤ} {t : ℕ} {S : ℝ} {a : ℤ} {tr : Trade} {pnl : ℝ}
    (h : tr.isOpen = true)
    (hc : (t : ℤ) - (tr.entryTick : ℤ) ≥ (hp : ℤ) ∨ a = -1) :
    tradeStep i sS pA hp v t S a tr pnl =
      ({ tr with
          exitTick := t, exitPrice := S, payoff := pA S tr * (tr.volume : ℝ),
          isOpen := false },
        pnl + pA S tr * (tr.volume : ℝ)) := by
  rw [tradeStep, if_neg (by simp [h]), if_pos h, if_pos hc]

lemma tradeStep_opened {i : ℕ} {sS : ℝ → Trade → Trade} {pA : ℝ → Trade → ℝ}
    {hp : ℕ} {v : ℤ} {t : ℕ} {S : ℝ} {a : ℤ} {tr : Trade} {pnl : ℝ}
    (h : tr.isOpen = false)
    (ho : (tradeStep i sS pA hp v t S a tr pnl).1.isOpen = true) : a = 1 := by
  by_cases ha : a = 1
  · exact ha
  · rw [tradeStep_not_enter h ha] at ho
    rw [show (tr, pnl).1 = tr from rfl, h] at ho
    exact absurd ho (by simp)

lemma tradeStep_pnl_cases {i : ℕ} {sS : ℝ → Trade → Trade} {pA : ℝ → Trade → ℝ}
    {hp : ℕ} {v : ℤ} {t : ℕ} {S : ℝ} {a : ℤ} {tr : Trade} {pnl : ℝ} :
    (tradeStep i sS pA hp v t S a tr pnl).2 = pnl ∨
    (tr.isOpen = true ∧ (tradeStep i sS pA hp v t S a tr pnl).1.isOpen = false ∧
      (tradeStep i sS pA hp v t S a tr pnl).2 = pnl + pA S tr * (tr.volume : ℝ)) := by
  by_cases h : tr.isOpen = false
  · by_cases ha : a = 1
    · left
      rw [tradeStep_enter h ha]
    · left
      rw [tradeStep_not_enter h ha]
  · have h' : tr.isOpen = true := by simpa using h
    by_cases hc : (t : ℤ) - (tr.entryTick : ℤ) ≥ (hp : ℤ) ∨ a = -1
    · right
      rw [tradeStep_close h' hc]
      exact ⟨h', rfl, rfl⟩
    · left
      rw [tradeStep_hold h' hc]

lemma setStrikesOf_base (d : ℝ) (i : ℕ) (S : ℝ) (tr : Trade) :
    (setStrikesOf d i S tr).isOpen = tr.isOpen ∧
    (setStrikesOf d i S tr).entryTick = tr.entryTick ∧
    (setStrikesOf d i S tr).entryPrice = tr.entryPrice ∧
    (setStrikesOf d i S tr).volume = tr.volume := by
  rw [setStrikesOf]
  split_ifs <;> exact ⟨rfl, rfl, rfl, rfl⟩

/-! #### Projection lemmas for the simulation loop -/

lemma simRun_succ (p : Params) (Z : ℕ → ℝ) (n : ℕ) :
    simRun p Z (n + 1) = simStep p (Z (n + 1)) (n + 1) (simRun p Z n) := rfl

lemma simStep_prices (p : Params) (Z : ℝ) (t : ℕ) (st : SimState) :
    (simStep p Z t st).prices = st.prices ++ [stepPrice p Z st] := rfl

lemma simStep_trades (p : Params) (Z : ℝ) (t : ℕ) (st : SimState) (i : ℕ) :
    (simStep p Z t st).trades i =
      (tradeStep i (setStrikesOf p.delta i) (payoffAtOf i) p.holdPeriod p.tradeVolume t
        (stepPrice p Z st)
        (signalOf p (computeMA (st.prices ++ [stepPrice p Z st]) t p.shortWindow)
          (computeMA (st.prices ++ [stepPrice p Z st]) t p.longWindow)
          (computeVolatility (st.prices ++ [stepPrice p Z st]) t p.volWindow) i)
        (st.trades i) (st.pnl i)).1 := rfl

lemma simStep_pnl (p : Params) (Z : ℝ) (t : ℕ) (st : SimState) (i : ℕ) :
    (simStep p Z t st).pnl i =
      (tradeStep i (setStrikesOf p.delta i) (payoffAtOf i) p.holdPeriod p.tradeVolume t
        (stepPrice p Z st)
        (signalOf p (computeMA (st.prices ++ [stepPrice p Z st]) t p.shortWindow)
          (computeMA (st.prices ++ [stepPrice p Z st]) t p.longWindow)
          (computeVolatility (st.prices ++ [stepPrice p Z st]) t p.volWindow) i)
        (st.trades i) (st.pnl i)).2 := rfl

/-! #### Claim C4 -/

/-- Claim C4: the per-strategy trade-lifecycle step obeys the spec's priority
order — Flat + Enter opens (recording entry tick, entry price, the
strategy-specific strikes and the configured volume, without touching PnL),
Open + (holding period elapsed or Exit) closes (adding payoff at the current
settlement price and the recorded strikes, times volume, to PnL), anything
else leaves the state unchanged; a trade opened at a tick is not also closed
at that same tick. -/
theorem trade_lifecycle (p : Params) (i t : ℕ) (S : ℝ) (alpha : ℤ) (tr : Trade) (pnl : ℝ)
    (res : Trade × ℝ)
    (hres : res = tradeStep i (setStrikesOf p.delta i) (payoffAtOf i) p.holdPeriod
      p.tradeVolume t S alpha tr pnl) :
    (tr.isOpen = false ∧ alpha = 1 →
      res.1.isOpen = true ∧ res.1.entryTick = t ∧ res.1.entryPrice = S ∧
      res.1.volume = p.tradeVolume ∧ res.2 = pnl ∧
      (i = 1 → res.1.strike1 = S) ∧
      (i = 2 → res.1.strike1 = S * (1 - p.delta) ∧ res.1.strike2 = S * (1 + p.delta)) ∧
      (i = 3 → res.1.strike1 = S * (1 - p.delta) ∧ res.1.strike2 = S * (1 + p.delta)) ∧
      (i = 4 → res.1.strike1 = S * (1 + p.delta) ∧ res.1.strike2 = S * (1 - p.delta)) ∧
      (i = 5 → res.1.strike1 = S * (1 - p.delta) ∧ res.1.strike2 = S ∧
        res.1.strike3 = S * (1 + p.delta))) ∧
    (tr.isOpen = true ∧ ((t : ℤ) - (tr.entryTick : ℤ) ≥ (p.holdPeriod : ℤ) ∨ alpha = -1) →
      res.1.isOpen = false ∧ res.2 = pnl + payoffAtOf i S tr * (tr.volume : ℝ) ∧
      res.1.strike1 = tr.strike1 ∧ res.1.strike2 = tr.strike2 ∧
      res.1.strike3 = tr.strike3) ∧
    (tr.isOpen = false ∧ alpha ≠ 1 → res = (tr, pnl)) ∧
    (tr.isOpen = true ∧ ¬((t : ℤ) - (tr.entryTick : ℤ) ≥ (p.holdPeriod : ℤ) ∨ alpha = -1) →
      res = (tr, pnl)) ∧
    (tr.isOpen = false → res.2 = pnl) := by
  subst hres
  refine ⟨?_, ?_, ?_, ?_, ?_⟩
  · rintro ⟨h, ha⟩
    rw [tradeStep_enter h ha]
    refine ⟨?_, ?_, ?_, ?_, rfl, ?_, ?_, ?_, ?_, ?_⟩
    · exact (setStrikesOf_base _ _ _ _).1
    · exact (setStrikesOf_base _ _ _ _).2.1
    · exact (setStrikesOf_base _ _ _ _).2.2.1
    · exact (setStrikesOf_base _ _ _ _).2.2.2
    · rintro rfl; simp [setStrikesOf]
    · rintro rfl; simp [setStrikesOf]
    · rintro rfl; simp [setStrikesOf]
    · rintro rfl; simp [setStrikesOf]
    · rintro rfl; simp [setStrikesOf]
  · rintro ⟨h, hc⟩
    rw [tradeStep_close h hc]
    exact ⟨rfl, rfl, rfl, rfl, rfl⟩
  · rintro ⟨h, ha⟩
    rw [tradeStep_not_enter h ha]
  · rintro ⟨h, hc⟩
    rw [tradeStep_hold h hc]
  · intro h
    by_cases ha : alpha = 1
    · rw [tradeStep_enter h ha]
    · rw [tradeStep_not_enter h ha]

theorem trade_lifecycle_witness :
    (initTrade.isOpen = false ∧ (1 : ℤ) = 1) ∧
    ((tradeStep 1 (setStrikesOf codeParams.delta 1) (payoffAtOf 1) codeParams.holdPeriod
        codeParams.tradeVolume 3 100 1 initTrade 0).1.isOpen = true ∧
      (tradeStep 1 (setStrikesOf codeParams.delta 1) (payoffAtOf 1) codeParams.holdPeriod
        codeParams.tradeVolume 3 100 1 initTrade 0).1.entryTick = 3 ∧
      (tradeStep 1 (setStrikesOf codeParams.delta 1) (payoffAtOf 1) codeParams.holdPeriod
        codeParams.tradeVolume 3 100 1 initTrade 0).1.strike1 = 100) := by
  have h := (trade_lifecycle codeParams 1 3 100 1 initTrade 0 _ rfl).1 ⟨rfl, rfl⟩
  exact ⟨⟨rfl, rfl⟩, h.1, h.2.1, h.2.2.2.2.2.1 rfl⟩

/-! #### Claim C8 -/

/-- Claim C8: the signal mapping — Straddle/Strangle are Enter iff volatility
exceeds their high threshold, Exit iff it is below their low threshold, Hold
otherwise; BullSpread is Enter iff shortMA > longMA and Exit otherwise;
BearSpread is Enter iff shortMA < longMA and Exit otherwise; ButterflySpread
is Enter iff volatility < low threshold and Exit otherwise; the last three
never yield Hold. -/
theorem signal_mapping (shortMA longMA vola high low highS lowS : ℝ)
    (h1 : low ≤ high) (h2 : lowS ≤ highS) :
    (alphaStraddle vola high low = 1 ↔ vola > high) ∧
    (alphaStraddle vola high low = -1 ↔ vola < low) ∧
    ((¬vola > high ∧ ¬vola < low) → alphaStraddle vola high low = 0) ∧
    (alphaStrangle vola highS lowS = 1 ↔ vola > highS) ∧
    (alphaStrangle vola highS lowS = -1 ↔ vola < lowS) ∧
    ((¬vola > highS ∧ ¬vola < lowS) → alphaStrangle vola highS lowS = 0) ∧
    (alphaBull shortMA longMA = 1 ↔ shortMA > longMA) ∧
    (alphaBull shortMA longMA = -1 ↔ ¬shortMA > longMA) ∧
    (alphaBear shortMA longMA = 1 ↔ shortMA < longMA) ∧
    (alphaBear shortMA longMA = -1 ↔ ¬shortMA < longMA) ∧
    (alphaButterfly vola low = 1 ↔ vola < low) ∧
    (alphaButterfly vola low = -1 ↔ ¬vola < low) ∧
    alphaBull shortMA longMA ≠ 0 ∧ alphaBear shortMA longMA ≠ 0 ∧
    alphaButterfly vola low ≠ 0 := by
  unfold alphaStraddle alphaStrangle alphaBull alphaBear alphaButterfly
  refine ⟨?_, ?_, ?_, ?_, ?_, ?_, ?_, ?_, ?_, ?_, ?_, ?_, ?_, ?_, ?_⟩ <;>
    (split_ifs <;> simp_all) <;> linarith

theorem signal_mapping_witness :
    ((0.005 : ℝ) ≤ 0.01 ∧ (0.007 : ℝ) ≤ 0.012) ∧
    alphaStraddle 0.02 0.01 0.005 = 1 ∧ alphaButterfly 0 0.005 = 1 := by
  have h := signal_mapping 0 0 0.02 0.01 0.005 0.012 0.007 (by norm_num) (by norm_num)
  have h2 := signal_mapping 0 0 0 0.01 0.005 0.012 0.007 (by norm_num) (by norm_num)
  exact ⟨⟨by norm_num, by norm_num⟩, h.1.mpr (by norm_num),
    (h2.2.2.2.2.2.2.2.2.2.2.1).mpr (by norm_num)⟩

/-! #### Claim C10 -/

/-- Claim C10: the BullSpread and BearSpread signals are each exactly one of
Enter(+1) or Exit(-1), never both Enter at the same tick (both Exit exactly
when shortMA = longMA); consequently the two strategies never both open a
new trade at the same simulation step. -/
theorem bull_bear_exclusive (shortMA longMA : ℝ) (p : Params) (Z : ℝ) (t : ℕ)
    (st : SimState) :
    (alphaBull shortMA longMA = 1 ∨ alphaBull shortMA longMA = -1) ∧
    (alphaBear shortMA longMA = 1 ∨ alphaBear shortMA longMA = -1) ∧
    ¬(alphaBull shortMA longMA = 1 ∧ alphaBear shortMA longMA = 1) ∧
    ((alphaBull shortMA longMA = -1 ∧ alphaBear shortMA longMA = -1) ↔
      shortMA = longMA) ∧
    ¬((st.trades 3).isOpen = false ∧ ((simStep p Z t st).trades 3).isOpen = true ∧
      (st.trades 4).isOpen = false ∧ ((simStep p Z t st).trades 4).isOpen = true) := by
  refine ⟨?_, ?_, ?_, ?_, ?_⟩
  · unfold alphaBull; split_ifs <;> simp
  · unfold alphaBear; split_ifs <;> simp
  · unfold alphaBull alphaBear; split_ifs <;> simp_all <;> linarith
  · unfold alphaBull alphaBear; split_ifs <;> simp_all <;> linarith
  · rintro ⟨h3, ho3, h4, ho4⟩
    rw [simStep_trades] at ho3 ho4
    have a3 := tradeStep_opened h3 ho3
    have a4 := tradeStep_opened h4 ho4
    have e3 : ∀ sMA lMA vv : ℝ, signalOf p sMA lMA vv 3 = alphaBull sMA lMA := by
      intro sMA lMA vv
      rw [signalOf, if_neg (by omega : ¬(3 : ℕ) = 1), if_neg (by omega : ¬(3 : ℕ) = 2),
        if_pos (rfl : (3 : ℕ) = 3)]
    have e4 : ∀ sMA lMA vv : ℝ, signalOf p sMA lMA vv 4 = alphaBear sMA lMA := by
      intro sMA lMA vv
      rw [signalOf, if_neg (by omega : ¬(4 : ℕ) = 1), if_neg (by omega : ¬(4 : ℕ) = 2),
        if_neg (by omega : ¬(4 : ℕ) = 3), if_pos (rfl : (4 : ℕ) = 4)]
    rw [e3, alphaBull] at a3
    rw [e4, alphaBear] at a4
    by_cases hgt : computeMA (st.prices ++ [stepPrice p Z st]) t p.shortWindow >
        computeMA (st.prices ++ [stepPrice p Z st]) t p.longWindow
    · rw [if_neg (by linarith)] at a4
      exact absurd a4 (by decide)
    · rw [if_neg hgt] at a3
      exact absurd a3 (by decide)

/-! #### Claim C7 -/

/-- Claim C7: per strategy, the number of open transitions equals the number
of close transitions when the slot is closed, and exceeds it by exactly one
when a trade is still open — so opens = closes, or closes + 1 if a trade
remains open at the final tick.  (At most one open trade per strategy holds
structurally: each strategy owns the single slot `activeTrades[i]`.) -/
theorem open_close_balance (p : Params) (Z : ℕ → ℝ) (i n : ℕ) :
    opensUpTo p Z i n = closesUpTo p Z i n +
      (if ((simRun p Z n).trades i).isOpen = true then 1 else 0) := by
  induction n with
  | zero => simp [opensUpTo, closesUpTo, simRun, initState, initTrade]
  | succ n ih =>
      simp only [opensUpTo, closesUpTo]
      rcases hb0 : ((simRun p Z n).trades i).isOpen <;>
        rcases hb1 : ((simRun p Z (n + 1)).trades i).isOpen <;>
          rw [ih, hb0] <;> simp [hb1]

/-! #### Claim C3 (amended theorem) -/

/-- Claim C3 (amended): a strategy's cumulative PnL is changed only by a
trade closure for that strategy — every other step leaves it unchanged —
and each closure adds payoff times volume to the running total (the added
amount can be negative, e.g. a bear spread settling above its short strike,
so the total need not be non-decreasing). -/
theorem pnl_changes_only_at_close (p : Params) (Z : ℕ → ℝ) (n i : ℕ) :
    (simRun p Z (n + 1)).pnl i = (simRun p Z n).pnl i ∨
    (((simRun p Z n).trades i).isOpen = true ∧
      ((simRun p Z (n + 1)).trades i).isOpen = false ∧
      (simRun p Z (n + 1)).pnl i = (simRun p Z n).pnl i +
        payoffAtOf i (stepPrice p (Z (n + 1)) (simRun p Z n)) ((simRun p Z n).trades i) *
          (((simRun p Z n).trades i).volume : ℝ)) := by
  rw [simRun_succ, simStep_pnl, simStep_trades]
  exact tradeStep_pnl_cases

/-! #### Claim C5 -/

lemma getLastD_mem {l : List ℝ} (h : l ≠ []) : l.getLast?.getD 0 ∈ l := by
  rw [List.getLast?_eq_getLast l h]
  exact List.getLast_mem h

lemma simRun_prices_ne_nil (p : Params) (Z : ℕ → ℝ) (n : ℕ) :
    (simRun p Z n).prices ≠ [] := by
  induction n with
  | zero => simp [simRun, initState]
  | succ n ih =>
      rw [simRun_succ, simStep_prices]
      simp

lemma simRun_prices_pos (p : Params) (Z : ℕ → ℝ) (hS : 0 < p.S0) :
    ∀ n x, x ∈ (simRun p Z n).prices → 0 < x := by
  intro n
  induction n with
  | zero =>
      intro x hx
      simp only [simRun, initState, List.mem_singleton] at hx
      rw [hx]
      exact hS
  | succ n ih =>
      intro x hx
      rw [simRun_succ, simStep_prices] at hx
      rcases List.mem_append.mp hx with h | h
      · exact ih x h
      · rw [List.mem_singleton] at h
        subst h
        rw [stepPrice, gbmStep]
        exact mul_pos (ih _ (getLastD_mem (simRun_prices_ne_nil p Z n))) (Real.exp_pos _)

/-- Claim C5: the price step computes
`newPrice = prev * exp((drift - 0.5*vol^2)*dt + vol*sqrt(dt)*Z)`; it is
strictly positive for every positive previous price (any finite draw), and
consequently every value of the generated price path is strictly positive
for the whole run whenever the initial price is positive. -/
theorem gbm_step_spec (Sprev mu sigma dt Z : ℝ) :
    gbmStep Sprev mu sigma dt Z =
      Sprev * Real.exp ((mu - 0.5 * sigma ^ 2) * dt + sigma * Real.sqrt dt * Z) ∧
    (0 < Sprev → 0 ≤ sigma → 0 < dt → 0 < gbmStep Sprev mu sigma dt Z) ∧
    (∀ (p : Params) (W : ℕ → ℝ) (n : ℕ) (x : ℝ),
      0 < p.S0 → x ∈ (simRun p W n).prices → 0 < x) := by
  refine ⟨?_, fun hS _ _ => ?_, fun p W n x hS hx => simRun_prices_pos p W hS n x hx⟩
  · rw [gbmStep, show (mu - 0.5 * sigma * sigma) * dt + sigma * Real.sqrt dt * Z =
      (mu - 0.5 * sigma ^ 2) * dt + sigma * Real.sqrt dt * Z from by ring]
  · rw [gbmStep]
    exact mul_pos hS (Real.exp_pos _)

theorem gbm_step_spec_witness :
    ((0 : ℝ) < 100 ∧ (0 : ℝ) ≤ 0.01 ∧ (0 : ℝ) < 1 ∧ (0 : ℝ) < codeParams.S0) ∧
    0 < gbmStep 100 0.0001 0.01 1 0 ∧
    0 < stepPrice codeParams 0 (simRun codeParams (fun _ => 0) 0) :=
  ⟨⟨by norm_num, by norm_num, by norm_num, by norm_num [codeParams]⟩,
    (gbm_step_spec 100 0.0001 0.01 1 0).2.1 (by norm_num) (by norm_num) (by norm_num),
    (gbm_step_spec 0 0 0 0 0).2.2 codeParams (fun _ => 0) 1 _
      (by norm_num [codeParams])
      (by rw [simRun_succ, simStep_prices]
          exact List.mem_append_right _ (List.mem_singleton_self _))⟩

/-! #### The degenerate run (drift = 0, volatility = 0) -/

lemma computeMA_replicate (m t w : ℕ) (c : ℝ) (hw : 1 ≤ w) (ht : t < m) :
    computeMA (List.replicate m c) t w = c := by
  rw [computeMA]
  split_ifs with h
  · exact getD_replicate m t c ht
  · have hmap : ∀ j ∈ List.range w,
        (List.replicate m c).getD (t + 1 - w + j) 0 = c := by
      intro j hj
      rw [List.mem_range] at hj
      exact getD_replicate _ _ _ (by omega)
    rw [List.map_congr_left hmap, List.map_const', List.length_range,
      List.sum_replicate, nsmul_eq_mul]
    exact mul_div_cancel_left₀ c (Nat.cast_ne_zero.mpr (by omega))

lemma gbm_degen (S Z : ℝ) : gbmStep S 0 0 1 Z = S := by
  rw [gbmStep, show ((0:ℝ) - 0.5 * 0 * 0) * 1 + 0 * Real.sqrt 1 * Z = 0 from by ring,
    Real.exp_zero, mul_one]

lemma lastD_replicate (m : ℕ) (c : ℝ) :
    (List.replicate (m + 1) c).getLast?.getD 0 = c := by
  induction m with
  | zero => rfl
  | succ m ih =>
      rw [List.replicate_succ, List.replicate_succ, List.getLast?_cons_cons,
        ← List.replicate_succ]
      exact ih

lemma signal_degen_ne (i : ℕ) (hi : i ≠ 5) :
    signalOf degenParams 100 100 0 i ≠ 1 := by
  rw [signalOf]
  by_cases h1 : i = 1
  · rw [if_pos h1, alphaStraddle,
      if_neg (by norm_num [degenParams, codeParams]),
      if_pos (by norm_num [degenParams, codeParams])]
    decide
  · rw [if_neg h1]
    by_cases h2 : i = 2
    · rw [if_pos h2, alphaStrangle,
        if_neg (by norm_num [degenParams, codeParams]),
        if_pos (by norm_num [degenParams, codeParams])]
      decide
    · rw [if_neg h2]
      by_cases h3 : i = 3
      · rw [if_pos h3, alphaBull, if_neg (lt_irrefl _)]
        decide
      · rw [if_neg h3]
        by_cases h4 : i = 4
        · rw [if_pos h4, alphaBear, if_neg (lt_irrefl _)]
          decide
        · rw [if_neg h4, if_neg hi]
          decide

lemma signal_degen_bfly : signalOf degenParams 100 100 0 5 = 1 := by
  rw [signalOf, if_neg (by omega : ¬(5:ℕ) = 1), if_neg (by omega : ¬(5:ℕ) = 2),
    if_neg (by omega : ¬(5:ℕ) = 3), if_neg (by omega : ¬(5:ℕ) = 4),
    if_pos (rfl : (5:ℕ) = 5), alphaButterfly,
    if_pos (by norm_num [degenParams, codeParams])]

lemma bfly_payoff_value : butterflySpreadPayoff 100 95 100 105 = 5 := by
  norm_num [butterflySpreadPayoff, max_def]

/-- Full characterization of the degenerate run: constant price path, the
four non-butterfly strategies never act, and the butterfly cycles with
period 11 (open 10 ticks, close, re-open next tick), gaining 50 per cycle. -/
lemma degen_state (Z : ℕ → ℝ) (n : ℕ) :
    (simRun degenParams Z n).prices = List.replicate (n + 1) 100 ∧
    (∀ i, i ≠ 5 → (simRun degenParams Z n).trades i = initTrade ∧
      (simRun degenParams Z n).pnl i = 0) ∧
    (n % 11 = 0 → ((simRun degenParams Z n).trades 5).isOpen = false) ∧
    (n % 11 ≠ 0 →
      ((simRun degenParams Z n).trades 5).isOpen = true ∧
      ((simRun degenParams Z n).trades 5).entryTick = n + 1 - n % 11 ∧
      ((simRun degenParams Z n).trades 5).strike1 = 95 ∧
      ((simRun degenParams Z n).trades 5).strike2 = 100 ∧
      ((simRun degenParams Z n).trades 5).strike3 = 105 ∧
      ((simRun degenParams Z n).trades 5).volume = 10) ∧
    (simRun degenParams Z n).pnl 5 = 50 * ((n / 11 : ℕ) : ℝ) := by
  induction n with
  | zero =>
      refine ⟨?_, fun i _ => ⟨rfl, rfl⟩, fun _ => rfl, fun h => absurd rfl h, ?_⟩
      · show [degenParams.S0] = List.replicate 1 100
        norm_num [degenParams, codeParams]
      · show (0 : ℝ) = 50 * ((0 / 11 : ℕ) : ℝ)
        norm_num
  | succ n ih =>
      obtain ⟨hprices, hflat, hbc, hbo, hpnl⟩ := ih
      have hsp : stepPrice degenParams (Z (n + 1)) (simRun degenParams Z n) = 100 := by
        rw [stepPrice, hprices, lastD_replicate]
        exact gbm_degen 100 (Z (n + 1))
      have hps' : (simRun degenParams Z n).prices ++
          [stepPrice degenParams (Z (n + 1)) (simRun degenParams Z n)] =
          List.replicate (n + 2) 100 := by
        rw [hprices, hsp]
        exact (List.replicate_succ' (n + 1) 100).symm
      have hshort : computeMA ((simRun degenParams Z n).prices ++
          [stepPrice degenParams (Z (n + 1)) (simRun degenParams Z n)]) (n + 1)
          degenParams.shortWindow = 100 := by
        rw [hps']
        exact computeMA_replicate _ _ _ _ (by norm_num [degenParams, codeParams]) (by omega)
      have hlong : computeMA ((simRun degenParams Z n).prices ++
          [stepPrice degenParams (Z (n + 1)) (simRun degenParams Z n)]) (n + 1)
          degenParams.longWindow = 100 := by
        rw [hps']
        exact computeMA_replicate _ _ _ _ (by norm_num [degenParams, codeParams]) (by omega)
      have hvol : computeVolatility ((simRun degenParams Z n).prices ++
          [stepPrice degenParams (Z (n + 1)) (simRun degenParams Z n)]) (n + 1)
          degenParams.volWindow = 0 := by
        rw [hps']
        exact vol_replicate _ _ _ _ (by norm_num) (by omega)
      have h5t : (simRun degenParams Z (n + 1)).trades 5 =
          (tradeStep 5 (setStrikesOf degenParams.delta 5) (payoffAtOf 5)
            degenParams.holdPeriod degenParams.tradeVolume (n + 1) 100 1
            ((simRun degenParams Z n).trades 5) ((simRun degenParams Z n).pnl 5)).1 := by
        rw [simRun_succ, simStep_trades, hshort, hlong, hvol, signal_degen_bfly, hsp]
      have h5p : (simRun degenParams Z (n + 1)).pnl 5 =
          (tradeStep 5 (setStrikesOf degenParams.delta 5) (payoffAtOf 5)
            degenParams.holdPeriod degenParams.tradeVolume (n + 1) 100 1
            ((simRun degenParams Z n).trades 5) ((simRun degenParams Z n).pnl 5)).2 := by
        rw [simRun_succ, simStep_pnl, hshort, hlong, hvol, signal_degen_bfly, hsp]
      refine ⟨?_, ?_, ?_, ?_, ?_⟩
      · rw [simRun_succ, simStep_prices, hps']
      · intro i hi
        obtain ⟨htr, hp0⟩ := hflat i hi
        constructor
        · rw [simRun_succ, simStep_trades, hshort, hlong, hvol, hsp, htr, hp0,
            tradeStep_not_enter rfl (signal_degen_ne i hi)]
        · rw [simRun_succ, simStep_pnl, hshort, hlong, hvol, hsp, htr, hp0,
            tradeStep_not_enter rfl (signal_degen_ne i hi)]
      · intro hmod1
        by_cases hmod : n % 11 = 0
        · exact absurd hmod1 (by omega)
        · obtain ⟨hop, het, hs1, hs2, hs3, hvolu⟩ := hbo hmod
          have hr10 : n % 11 = 10 := by omega
          have hcond : ((n + 1 : ℕ) : ℤ) -
              ((((simRun degenParams Z n).trades 5).entryTick : ℕ) : ℤ) ≥
              ((degenParams.holdPeriod : ℕ) : ℤ) ∨ (1 : ℤ) = -1 := by
            left
            rw [het, show degenParams.holdPeriod = 10 from rfl]
            omega
          rw [h5t, tradeStep_close hop hcond]
      · intro hmod1
        by_cases hmod : n % 11 = 0
        · -- butterfly was closed, reopens at this tick
          rw [h5t, tradeStep_enter (hbc hmod) rfl]
          refine ⟨?_, ?_, ?_, ?_, ?_, ?_⟩
          · simp [setStrikesOf]
          · simp only [setStrikesOf]
            norm_num
            omega
          · simp only [setStrikesOf]
            norm_num [degenParams, codeParams]
          · simp [setStrikesOf]
          · simp only [setStrikesOf]
            norm_num [degenParams, codeParams]
          · simp only [setStrikesOf]
            norm_num [degenParams, codeParams]
        · obtain ⟨hop, het, hs1, hs2, hs3, hvolu⟩ := hbo hmod
          by_cases hr10 : n % 11 = 10
          · exact absurd hmod1 (by omega)
          · have hcond : ¬(((n + 1 : ℕ) : ℤ) -
                ((((simRun degenParams Z n).trades 5).entryTick : ℕ) : ℤ) ≥
                ((degenParams.holdPeriod : ℕ) : ℤ) ∨ (1 : ℤ) = -1) := by
              rintro (h | h)
              · rw [het, show degenParams.holdPeriod = 10 from rfl] at h
                omega
              · exact absurd h (by decide)
            rw [h5t, tradeStep_hold hop hcond]
            refine ⟨hop, ?_, hs1, hs2, hs3, hvolu⟩
            rw [het]
            omega
      · by_cases hmod : n % 11 = 0
        · rw [h5p, tradeStep_enter (hbc hmod) rfl, hpnl,
            show ((n + 1) / 11 : ℕ) = (n / 11 : ℕ) from by omega]
        · obtain ⟨hop, het, hs1, hs2, hs3, hvolu⟩ := hbo hmod
          by_cases hr10 : n % 11 = 10
          · have hcond : ((n + 1 : ℕ) : ℤ) -
                ((((simRun degenParams Z n).trades 5).entryTick : ℕ) : ℤ) ≥
                ((degenParams.holdPeriod : ℕ) : ℤ) ∨ (1 : ℤ) = -1 := by
              left
              rw [het, show degenParams.holdPeriod = 10 from rfl]
              omega
            have hpay : payoffAtOf 5 100 ((simRun degenParams Z n).trades 5) = 5 := by
              rw [payoffAtOf, if_neg (by omega : ¬(5:ℕ) = 1), if_neg (by omega : ¬(5:ℕ) = 2),
                if_neg (by omega : ¬(5:ℕ) = 3), if_neg (by omega : ¬(5:ℕ) = 4),
                if_pos (rfl : (5:ℕ) = 5), hs1, hs2, hs3]
              exact bfly_payoff_value
            rw [h5p, tradeStep_close hop hcond]
            show (simRun degenParams Z n).pnl 5 +
              payoffAtOf 5 100 ((simRun degenParams Z n).trades 5) *
                ((((simRun degenParams Z n).trades 5).volume : ℤ) : ℝ) = _
            rw [hpay, hvolu, hpnl, show ((n + 1) / 11 : ℕ) = (n / 11 : ℕ) + 1 from by omega]
            push_cast
            ring
          · have hcond : ¬(((n + 1 : ℕ) : ℤ) -
                ((((simRun degenParams Z n).trades 5).entryTick : ℕ) : ℤ) ≥
                ((degenParams.holdPeriod : ℕ) : ℤ) ∨ (1 : ℤ) = -1) := by
              rintro (h | h)
              · rw [het, show degenParams.holdPeriod = 10 from rfl] at h
                omega
              · exact absurd h (by decide)
            rw [h5p, tradeStep_hold hop hcond, hpnl,
              show ((n + 1) / 11 : ℕ) = (n / 11 : ℕ) from by omega]

/-- Claim C2 counterexample: with drift = 0 and volatility = 0 the butterfly
strategy — whose entry condition is the volatility threshold
`volatility < volThresholdLow` — has an open trade already after the first
tick of the constant-price run, refuting "every strategy whose entry
condition depends on volatility thresholds never enters a trade". -/
theorem degenerate_total_ce :
    ((simRun degenParams (fun _ => 0) 1).trades 5).isOpen = true ∧
    (simRun degenParams (fun _ => 0) 1).prices = [100, 100] := by
  obtain ⟨h1, _, _, h4, _⟩ := degen_state (fun _ => 0) 1
  exact ⟨(h4 (by omega)).1, by rw [h1]; rfl⟩

/-- Claim C2 (amended): with drift = 0 and volatility = 0 the price path is
constant at the initial price; Straddle, Strangle, BullSpread and BearSpread
never enter a trade over the whole run (the volatility-gated Straddle and
Strangle see volatility 0 below their exit thresholds, and BullSpread and
BearSpread see equal moving averages, hence Exit); ButterflySpread — whose
entry condition `volatility < volThresholdLow` is satisfied by volatility
0 — oscillates between entry and exit-at-holdPeriod with payoff exactly
`delta * S0 = 5` per unit (50 per close at volume 10), so the total PnL
summed over all five strategies after 10,000 ticks is 45450, not 0. -/
theorem degenerate_run_correct (Z : ℕ → ℝ) (n : ℕ) :
    (simRun degenParams Z n).prices = List.replicate (n + 1) 100 ∧
    (∀ i, i ≠ 5 → (simRun degenParams Z n).trades i = initTrade ∧
      (simRun degenParams Z n).pnl i = 0) ∧
    (n % 11 = 0 → ((simRun degenParams Z n).trades 5).isOpen = false) ∧
    (n % 11 ≠ 0 → ((simRun degenParams Z n).trades 5).isOpen = true) ∧
    (simRun degenParams Z n).pnl 5 = 50 * ((n / 11 : ℕ) : ℝ) ∧
    (simRun degenParams Z 9999).pnl 1 + (simRun degenParams Z 9999).pnl 2 +
      (simRun degenParams Z 9999).pnl 3 + (simRun degenParams Z 9999).pnl 4 +
      (simRun degenParams Z 9999).pnl 5 = 45450 := by
  obtain ⟨h1, h2, h3, h4, h5⟩ := degen_state Z n
  refine ⟨h1, h2, h3, fun h => (h4 h).1, h5, ?_⟩
  obtain ⟨_, hf, _, _, hp⟩ := degen_state Z 9999
  rw [(hf 1 (by omega)).2, (hf 2 (by omega)).2, (hf 3 (by omega)).2,
    (hf 4 (by omega)).2, hp]
  norm_num

/-! #### Claim C3 counterexample: a concrete run whose bear-spread PnL drops -/

lemma gbm_code_ratio (S : ℝ) (t : ℕ) (h : 0 < bearRatio t) :
    gbmStep S codeParams.mu codeParams.sigma codeParams.dt (bearZ t) = S * bearRatio t := by
  rw [gbmStep, bearZ, show codeParams.dt = 1 from rfl, Real.sqrt_one,
    show codeParams.mu = 0.0001 from rfl, show codeParams.sigma = 0.01 from rfl,
    show ((0.0001 : ℝ) - 0.5 * 0.01 * 0.01) * 1 +
      0.01 * 1 * (100 * Real.log (bearRatio t) - 0.005) = Real.log (bearRatio t) from by
        ring,
    Real.exp_log h]

lemma signalOf_bear (p : Params) (sMA lMA vv : ℝ) :
    signalOf p sMA lMA vv 4 = alphaBear sMA lMA := rfl

/-- Claim C3 counterexample: in the run driven by the draws `bearZ` (prices
100, 100, 100, 100, 150, 300, 160), the bear spread opens at tick 4 at
entry price 150 (long put strike 157.5, short strike 142.5) and is
signal-closed at tick 6 at settlement 160, with payoff -17.5 times
volume 10 — its CumulativePnL falls from 0 to -175, so the running total is
not monotonically non-decreasing. -/
theorem pnl_monotone_ce :
    (simRun codeParams bearZ 5).pnl 4 = 0 ∧
    (simRun codeParams bearZ 6).pnl 4 = -175 := by
  -- the price path
  have h0 : (simRun codeParams bearZ 0).prices = [100] := rfl
  have hsp1 : stepPrice codeParams (bearZ 1) (simRun codeParams bearZ 0) = 100 := by
    rw [stepPrice, h0, show (([100] : List ℝ).getLast?.getD 0) = 100 from rfl,
      gbm_code_ratio _ _ (by norm_num [bearRatio])]
    norm_num [bearRatio]
  have s1 : simRun codeParams bearZ 1 =
      simStep codeParams (bearZ 1) 1 (simRun codeParams bearZ 0) := rfl
  have h1 : (simRun codeParams bearZ 1).prices = [100, 100] := by
    rw [s1, simStep_prices, h0, hsp1]; rfl
  have hsp2 : stepPrice codeParams (bearZ 2) (simRun codeParams bearZ 1) = 100 := by
    rw [stepPrice, h1, show (([100, 100] : List ℝ).getLast?.getD 0) = 100 from rfl,
      gbm_code_ratio _ _ (by norm_num [bearRatio])]
    norm_num [bearRatio]
  have s2 : simRun codeParams bearZ 2 =
      simStep codeParams (bearZ 2) 2 (simRun codeParams bearZ 1) := rfl
  have h2 : (simRun codeParams bearZ 2).prices = [100, 100, 100] := by
    rw [s2, simStep_prices, h1, hsp2]; rfl
  have hsp3 : stepPrice codeParams (bearZ 3) (simRun codeParams bearZ 2) = 100 := by
    rw [stepPrice, h2, show (([100, 100, 100] : List ℝ).getLast?.getD 0) = 100 from rfl,
      gbm_code_ratio _ _ (by norm_num [bearRatio])]
    norm_num [bearRatio]
  have s3 : simRun codeParams bearZ 3 =
      simStep codeParams (bearZ 3) 3 (simRun codeParams bearZ 2) := rfl
  have h3 : (simRun codeParams bearZ 3).prices = [100, 100, 100, 100] := by
    rw [s3, simStep_prices, h2, hsp3]; rfl
  have hsp4 : stepPrice codeParams (bearZ 4) (simRun codeParams bearZ 3) = 150 := by
    rw [stepPrice, h3, show (([100, 100, 100, 100] : List ℝ).getLast?.getD 0) = 100 from rfl,
      gbm_code_ratio _ _ (by norm_num [bearRatio])]
    norm_num [bearRatio]
  have s4 : simRun codeParams bearZ 4 =
      simStep codeParams (bearZ 4) 4 (simRun codeParams bearZ 3) := rfl
  have h4 : (simRun codeParams bearZ 4).prices = [100, 100, 100, 100, 150] := by
    rw [s4, simStep_prices, h3, hsp4]; rfl
  have hsp5 : stepPrice codeParams (bearZ 5) (simRun codeParams bearZ 4) = 300 := by
    rw [stepPrice, h4,
      show (([100, 100, 100, 100, 150] : List ℝ).getLast?.getD 0) = 150 from rfl,
      gbm_code_ratio _ _ (by norm_num [bearRatio])]
    norm_num [bearRatio]
  have s5 : simRun codeParams bearZ 5 =
      simStep codeParams (bearZ 5) 5 (simRun codeParams bearZ 4) := rfl
  have h5 : (simRun codeParams bearZ 5).prices = [100, 100, 100, 100, 150, 300] := by
    rw [s5, simStep_prices, h4, hsp5]; rfl
  have hsp6 : stepPrice codeParams (bearZ 6) (simRun codeParams bearZ 5) = 160 := by
    rw [stepPrice, h5,
      show (([100, 100, 100, 100, 150, 300] : List ℝ).getLast?.getD 0) = 300 from rfl,
      gbm_code_ratio _ _ (by norm_num [bearRatio])]
    norm_num [bearRatio]
  have s6 : simRun codeParams bearZ 6 =
      simStep codeParams (bearZ 6) 6 (simRun codeParams bearZ 5) := rfl
  -- price histories seen by the indicators at each tick
  have hP1 : (simRun codeParams bearZ 0).prices ++
      [stepPrice codeParams (bearZ 1) (simRun codeParams bearZ 0)] = [100, 100] := by
    rw [h0, hsp1]; rfl
  have hP2 : (simRun codeParams bearZ 1).prices ++
      [stepPrice codeParams (bearZ 2) (simRun codeParams bearZ 1)] = [100, 100, 100] := by
    rw [h1, hsp2]; rfl
  have hP3 : (simRun codeParams bearZ 2).prices ++
      [stepPrice codeParams (bearZ 3) (simRun codeParams bearZ 2)] =
      [100, 100, 100, 100] := by
    rw [h2, hsp3]; rfl
  have hP4 : (simRun codeParams bearZ 3).prices ++
      [stepPrice codeParams (bearZ 4) (simRun codeParams bearZ 3)] =
      [100, 100, 100, 100, 150] := by
    rw [h3, hsp4]; rfl
  have hP5 : (simRun codeParams bearZ 4).prices ++
      [stepPrice codeParams (bearZ 5) (simRun codeParams bearZ 4)] =
      [100, 100, 100, 100, 150, 300] := by
    rw [h4, hsp5]; rfl
  have hP6 : (simRun codeParams bearZ 5).prices ++
      [stepPrice codeParams (bearZ 6) (simRun codeParams bearZ 5)] =
      [100, 100, 100, 100, 150, 300, 160] := by
    rw [h5, hsp6]; rfl
  -- moving averages at each tick
  have hma1 : computeMA [100, 100] 1 codeParams.shortWindow = 100 := rfl
  have hml1 : computeMA [100, 100] 1 codeParams.longWindow = 100 := rfl
  have hma2 : computeMA [100, 100, 100] 2 codeParams.shortWindow = 100 := rfl
  have hml2 : computeMA [100, 100, 100] 2 codeParams.longWindow = 100 := rfl
  have hma3 : computeMA [100, 100, 100, 100] 3 codeParams.shortWindow = 100 := rfl
  have hml3 : computeMA [100, 100, 100, 100] 3 codeParams.longWindow = 100 := rfl
  have hma4 : computeMA [100, 100, 100, 100, 150] 4 codeParams.shortWindow = 110 := by
    rw [show computeMA [100, 100, 100, 100, 150] 4 codeParams.shortWindow =
      (100 + (100 + (100 + (100 + (150 + 0))))) / ((5 : ℕ) : ℝ) from rfl]
    norm_num
  have hml4 : computeMA [100, 100, 100, 100, 150] 4 codeParams.longWindow = 150 := rfl
  have hma5 : computeMA [100, 100, 100, 100, 150, 300] 5 codeParams.shortWindow = 150 := by
    rw [show computeMA [100, 100, 100, 100, 150, 300] 5 codeParams.shortWindow =
      (100 + (100 + (100 + (150 + (300 + 0))))) / ((5 : ℕ) : ℝ) from rfl]
    norm_num
  have hml5 : computeMA [100, 100, 100, 100, 150, 300] 5 codeParams.longWindow = 300 := rfl
  have hma6 : computeMA [100, 100, 100, 100, 150, 300, 160] 6
      codeParams.shortWindow = 162 := by
    rw [show computeMA [100, 100, 100, 100, 150, 300, 160] 6 codeParams.shortWindow =
      (100 + (100 + (150 + (300 + (160 + 0))))) / ((5 : ℕ) : ℝ) from rfl]
    norm_num
  have hml6 : computeMA [100, 100, 100, 100, 150, 300, 160] 6
      codeParams.longWindow = 160 := rfl
  -- bear-spread signals
  have ha1 : alphaBear (100 : ℝ) 100 ≠ 1 := by
    rw [alphaBear, if_neg (lt_irrefl _)]
    decide
  have ha4 : alphaBear (110 : ℝ) 150 = 1 := by
    rw [alphaBear, if_pos (by norm_num)]
  have ha6 : alphaBear (162 : ℝ) 160 = -1 := by
    rw [alphaBear, if_neg (by norm_num)]
  -- the bear-spread slot, tick by tick
  have ht1 : (simRun codeParams bearZ 1).trades 4 = initTrade := by
    rw [s1, simStep_trades, hP1, signalOf_bear, hma1, hml1,
      tradeStep_not_enter rfl ha1]
    rfl
  have hq1 : (simRun codeParams bearZ 1).pnl 4 = 0 := by
    rw [s1, simStep_pnl, hP1, signalOf_bear, hma1, hml1,
      tradeStep_not_enter rfl ha1]
    rfl
  have ht2 : (simRun codeParams bearZ 2).trades 4 = initTrade := by
    rw [s2, simStep_trades, hP2, signalOf_bear, hma2, hml2, ht1, hq1,
      tradeStep_not_enter rfl ha1]
  have hq2 : (simRun codeParams bearZ 2).pnl 4 = 0 := by
    rw [s2, simStep_pnl, hP2, signalOf_bear, hma2, hml2, ht1, hq1,
      tradeStep_not_enter rfl ha1]
  have ht3 : (simRun codeParams bearZ 3).trades 4 = initTrade := by
    rw [s3, simStep_trades, hP3, signalOf_bear, hma3, hml3, ht2, hq2,
      tradeStep_not_enter rfl ha1]
  have hq3 : (simRun codeParams bearZ 3).pnl 4 = 0 := by
    rw [s3, simStep_pnl, hP3, signalOf_bear, hma3, hml3, ht2, hq2,
      tradeStep_not_enter rfl ha1]
  -- entry at tick 4
  have ht4 : (simRun codeParams bearZ 4).trades 4 =
      setStrikesOf codeParams.delta 4 150
        { initTrade with
          isOpen := true, strategyType := 4, entryTick := 4,
          entryPrice := 150, volume := codeParams.tradeVolume } := by
    rw [s4, simStep_trades, hP4, signalOf_bear, hma4, hml4, hsp4, ht3, hq3,
      tradeStep_enter rfl ha4]
  have hq4 : (simRun codeParams bearZ 4).pnl 4 = 0 := by
    rw [s4, simStep_pnl, hP4, signalOf_bear, hma4, hml4, hsp4, ht3, hq3,
      tradeStep_enter rfl ha4]
  have hopen4 : ((simRun codeParams bearZ 4).trades 4).isOpen = true := by
    rw [ht4]; rfl
  have het4 : ((simRun codeParams bearZ 4).trades 4).entryTick = 4 := by
    rw [ht4]; rfl
  have hs14 : ((simRun codeParams bearZ 4).trades 4).strike1 = 157.5 := by
    rw [ht4]
    show (150 : ℝ) * (1 + codeParams.delta) = 157.5
    norm_num [codeParams]
  have hs24 : ((simRun codeParams bearZ 4).trades 4).strike2 = 142.5 := by
    rw [ht4]
    show (150 : ℝ) * (1 - codeParams.delta) = 142.5
    norm_num [codeParams]
  have hv4 : ((simRun codeParams bearZ 4).trades 4).volume = 10 := by
    rw [ht4]; rfl
  -- hold at tick 5
  have hcond5 : ¬(((5 : ℕ) : ℤ) -
      ((((simRun codeParams bearZ 4).trades 4).entryTick : ℕ) : ℤ) ≥
      ((codeParams.holdPeriod : ℕ) : ℤ) ∨ alphaBear (150 : ℝ) 300 = -1) := by
    rintro (h | h)
    · rw [het4, show codeParams.holdPeriod = 10 from rfl] at h
      omega
    · rw [alphaBear, if_pos (by norm_num)] at h
      exact absurd h (by decide)
  have ht5 : (simRun codeParams bearZ 5).trades 4 =
      (simRun codeParams bearZ 4).trades 4 := by
    rw [s5, simStep_trades, hP5, signalOf_bear, hma5, hml5,
      tradeStep_hold hopen4 hcond5]
  have hq5 : (simRun codeParams bearZ 5).pnl 4 = 0 := by
    rw [s5, simStep_pnl, hP5, signalOf_bear, hma5, hml5,
      tradeStep_hold hopen4 hcond5]
    exact hq4
  -- signal-close at tick 6
  have hopen5 : ((simRun codeParams bearZ 5).trades 4).isOpen = true := by
    rw [ht5]; exact hopen4
  have hq6 : (simRun codeParams bearZ 6).pnl 4 = -175 := by
    rw [s6, simStep_pnl, hP6, signalOf_bear, hma6, hml6, hsp6,
      tradeStep_close hopen5 (Or.inr ha6), hq5]
    have hpay : payoffAtOf 4 160 ((simRun codeParams bearZ 5).trades 4) = -17.5 := by
      show bearSpreadPayoff 160 (((simRun codeParams bearZ 5).trades 4).strike1)
        (((simRun codeParams bearZ 5).trades 4).strike2) = -17.5
      rw [ht5, hs14, hs24]
      norm_num [bearSpreadPayoff, max_def]
    rw [hpay, ht5, hv4]
    norm_num
  exact ⟨hq5, hq6⟩

end HFT
